import Mathlib

/-!
Shallow embedding of the `git test` subsystem of git-branchless
(`git-branchless-test/src/lib.rs`), together with proofs about the embedded
operations. Pure decision logic (exit-code classification, option resolution,
cache-slot acquisition, summary aggregation, the scheduler's event loop, and
fix planning) is translated directly from the Rust source; external
collaborators (the git library, serde_json, the file system, OS processes)
are represented by explicit parameters or by the inputs of the embedded
functions, mirroring the data those collaborators hand back to the code
under study.
-/

namespace GitBranchlessTest

/-- Commit/tree object ids (`NonZeroOid` in the source) are opaque content
hashes; we model them as natural numbers. A `MaybeZeroOid` (which may be the
all-zeros oid) is modelled as `Option Nat`, with `none` standing for the zero
oid, matching the `MaybeZeroOid -> Option<NonZeroOid>` conversion in the
source. -/
abbrev Oid := Nat

/-- The exit status used by a test command to request that the commit be
skipped (`INDETERMINATE_EXIT_CODE` in the source). -/
def INDETERMINATE_EXIT_CODE : Int := 125

/-- The exit status used by a test command to request that testing be aborted
entirely (`ABORT_EXIT_CODE` in the source). -/
def ABORT_EXIT_CODE : Int := 127

/-- Mirror of `TestExecutionStrategy` from `git-branchless-opts` (a closed
two-variant enumeration selected by `--strategy`). -/
inductive TestExecutionStrategy where
  | workingCopy
  | worktree
  deriving DecidableEq, Repr

/-- Mirror of `TestSearchStrategy` from `git-branchless-opts`. -/
inductive TestSearchStrategy where
  | linear
  | reverse
  | binary
  deriving DecidableEq, Repr

/-- Mirror of `enum TestStatus` (lib.rs, lines 835-888): the possible results
of attempting to run a test on one commit. -/
inductive TestStatus where
  | checkoutFailed
  | spawnTestFailed (msg : String)
  | terminatedBySignal
  | alreadyInProgress
  | readCacheFailed (msg : String)
  | indeterminate (exit_code : Int)
  | abort (exit_code : Int)
  | failed (cached : Bool) (exit_code : Int) (interactive : Bool)
  | passed (cached : Bool) (fixed_tree_oid : Option Oid) (interactive : Bool)
  deriving DecidableEq, Repr

/-- Projection of the `cached` field of a `TestStatus`, where present. The
`Indeterminate`, `Abort` and all skip-like variants carry no such field, so
the projection is partial (`none` when the field does not exist). -/
def TestStatus.cachedField : TestStatus → Option Bool
  | .failed cached _ _ => some cached
  | .passed cached _ _ => some cached
  | .checkoutFailed | .spawnTestFailed _ | .terminatedBySignal
  | .alreadyInProgress | .readCacheFailed _
  | .indeterminate _ | .abort _ => none

/-- Whether a status is the `Abort` variant. -/
def TestStatus.isAbort : TestStatus → Bool
  | .abort _ => true
  | _ => false

/-- Mirror of `struct SerializedTestResult` (lib.rs, lines 945-952): the
persisted cache record `{command, exit_code, fixed_tree_oid, interactive}`. -/
structure SerializedTestResult where
  command : String
  exit_code : Int
  fixed_tree_oid : Option Oid
  interactive : Bool
  deriving DecidableEq, Repr

/-- Mirror of `WorkingCopyChangesType` from the git library interface, as
consumed by `test_commit`: the classification of the working-copy snapshot
taken after the test command succeeds. -/
inductive WorkingCopyChangesType where
  | none
  | unstaged
  | staged
  | conflicts
  deriving DecidableEq, Repr

/-- The data `test_commit` extracts from the post-command working copy
snapshot (lib.rs, lines 2525-2545): the changes classification and the tree
oid of `snapshot.commit_unstaged` (a `MaybeZeroOid`, hence `Option Oid`). -/
structure PostCommandSnapshot where
  changesType : WorkingCopyChangesType
  unstagedTreeOid : Option Oid
  deriving DecidableEq, Repr

/-- Mirror of the `fixed_tree_oid` computation in `test_commit` (lib.rs,
lines 2525-2566), run when the command exits 0. Returns the recorded fixed
tree (if any) paired with whether the staged-changes/conflicts warning was
emitted. In the clean/unstaged case the source compares the commit's tree
against the snapshot tree as `MaybeZeroOid`s and records the snapshot tree
(converted to `Option<NonZeroOid>`) exactly when they differ. -/
def computeFixedTree (commitTreeOid : Oid) (snapshot : PostCommandSnapshot) :
    Option Oid × Bool :=
  match snapshot.changesType with
  | .none | .unstaged =>
    if snapshot.unstagedTreeOid ≠ some commitTreeOid then
      (snapshot.unstagedTreeOid, false)
    else
      (Option.none, false)
  | .staged | .conflicts => (Option.none, true)

/-- Outcome of `Command::status()` as consumed by `test_commit` (lib.rs,
lines 2501-2522): spawning may fail outright; a spawned child either exits
with a numeric code or is terminated by a signal (no code). -/
inductive CommandOutcome where
  | spawnFailed (msg : String)
  | killedBySignal
  | exited (code : Int)
  deriving DecidableEq, Repr

/-- The slice of `ResolvedTestOptions` consumed by `test_commit`. -/
structure TestCommitOptions where
  command : String
  interactive : Bool
  deriving DecidableEq, Repr

/-- Mirror of the exit-code classification in `test_commit` (lib.rs, lines
2523-2582): 0 becomes `Passed` (with the fixed-tree computation), 125
`Indeterminate`, 127 `Abort`, any other code `Failed`; the match arms are
tried in that order. -/
def classifyExitCode (opts : TestCommitOptions) (commitTreeOid : Oid)
    (snapshot : PostCommandSnapshot) (code : Int) : TestStatus :=
  if code = 0 then
    .passed false (computeFixedTree commitTreeOid snapshot).1 opts.interactive
  else if code = INDETERMINATE_EXIT_CODE then
    .indeterminate code
  else if code = ABORT_EXIT_CODE then
    .abort code
  else
    .failed false code opts.interactive

/-- Mirror of the cache-record construction in `test_commit` (lib.rs, lines
2584-2603): the persisted `fixed_tree_oid` is taken from the status only in
the `Passed` case and is `None` for every other variant. -/
def serializeTestResult (opts : TestCommitOptions) (exit_code : Int)
    (status : TestStatus) : SerializedTestResult :=
  { command := opts.command
    exit_code := exit_code
    fixed_tree_oid :=
      match status with
      | .passed _ fixed_tree_oid _ => fixed_tree_oid
      | .checkoutFailed | .spawnTestFailed _ | .terminatedBySignal
      | .alreadyInProgress | .readCacheFailed _
      | .failed _ _ _ | .abort _ | .indeterminate _ => Option.none
    interactive := opts.interactive }

/-- Contents of a cache slot's `result` file: `none` when the file does not
exist (reading it fails), `some s` when it holds the string `s`. An acquired
slot's files are truncated, leaving `some ""`. -/
abbrev SlotContents := Option String

/-- Mirror of `test_commit` (lib.rs, lines 2421-2613) from the point where
the slot has been acquired (so the `result` file holds `""`): given the
outcome of spawning the test command, produce the `TestStatus` and the new
contents of the `result` file. Spawn failure and signal termination return
before anything is written, leaving the file empty; a numeric exit code is
classified and the serialized record is written. The JSON encoding performed
by `serde_json::to_writer_pretty` is an external collaborator, passed in as
`encode`. -/
def test_commit (encode : SerializedTestResult → String)
    (opts : TestCommitOptions) (commitTreeOid : Oid)
    (snapshot : PostCommandSnapshot) (outcome : CommandOutcome) :
    TestStatus × SlotContents :=
  match outcome with
  | .spawnFailed msg => (.spawnTestFailed msg, some "")
  | .killedBySignal => (.terminatedBySignal, some "")
  | .exited code =>
    let status := classifyExitCode opts commitTreeOid snapshot code
    (status, some (encode (serializeTestResult opts code status)))

/-- Mirror of the cached-verdict derivation in `make_test_files` (lib.rs,
lines 2221-2258): map a successfully parsed cache record to a `TestStatus`.
Exit code 0 gives `Passed{cached: true}`; the `INDETERMINATE_EXIT_CODE` and
`ABORT_EXIT_CODE` guards are tried next; anything else gives
`Failed{cached: true}`. -/
def statusOfCachedRecord (r : SerializedTestResult) : TestStatus :=
  if r.exit_code = 0 then
    .passed true r.fixed_tree_oid r.interactive
  else if r.exit_code = INDETERMINATE_EXIT_CODE then
    .indeterminate r.exit_code
  else if r.exit_code = ABORT_EXIT_CODE then
    .abort r.exit_code
  else
    .failed true r.exit_code r.interactive

/-- Result of `make_test_files`: either a cached verdict (`Cached` in the
source, also covering the busy and unparseable cases, which are reported as
cached `TestOutput`s) or an acquired slot (`NotCached`). -/
inductive TestFilesResult where
  | cachedResult (status : TestStatus)
  | notCached
  deriving DecidableEq, Repr

/-- Mirror of `make_test_files` (lib.rs, lines 2177-2285) after the slot
directory has been set up: `lockOk` is the result of the non-blocking
`try_lock_with_pid` on `pid.lock`, `contents` the current `result` file, and
`parse` the external `serde_json::from_str` for `SerializedTestResult`
(returning the error message on failure). Returns the acquisition outcome
and the resulting `result` file contents. On lock failure nothing is read or
written and the verdict is `AlreadyInProgress`; with the lock held, a
missing or empty file leads to the slot being acquired with its files
truncated; a non-empty file is parsed, a parse failure becoming
`ReadCacheFailed` and a parsed record its cached verdict. -/
def make_test_files (parse : String → Except String SerializedTestResult)
    (lockOk : Bool) (contents : SlotContents) :
    TestFilesResult × SlotContents :=
  if ¬ lockOk then
    (.cachedResult .alreadyInProgress, contents)
  else
    match contents with
    | Option.none => (.notCached, some "")
    | some s =>
      if s = "" then
        (.notCached, some "")
      else
        match parse s with
        | .ok r => (.cachedResult (statusOfCachedRecord r), some s)
        | .error msg => (.cachedResult (.readCacheFailed msg), some s)

/-- Mirror of the `(resolved_jobs, resolved_execution_strategy,
resolved_interactive)` computation in `ResolvedTestOptions::resolve` (lib.rs,
lines 323-383). `jobs` and `strategy` are the command-line flags,
`configuredJobs` and `configStrategy` the (already validated) configuration
values `branchless.test.jobs` and `branchless.test.strategy`, and `numCpus`
the physical CPU count substituted for a resolved job count of 0. A result
of `none` models the configuration-error paths, which print a message and
return `ExitCode(1)` before any test subprocess is spawned. -/
def resolveJobsStrategyInteractive (jobs : Option Nat)
    (strategy : Option TestExecutionStrategy) (interactive : Bool)
    (configuredJobs : Option Nat) (configStrategy : Option TestExecutionStrategy)
    (numCpus : Nat) : Option (Nat × TestExecutionStrategy × Bool) :=
  let configuredExecutionStrategy :=
    strategy.getD (configStrategy.getD .workingCopy)
  let step1 : Option (Nat × TestExecutionStrategy × Bool) :=
    match jobs, strategy, interactive with
    | Option.none, some .workingCopy, i => some (1, .workingCopy, i)
    | Option.none, some .worktree, true => some (1, .worktree, true)
    | Option.none, some .worktree, false =>
      some (configuredJobs.getD 1, .worktree, false)
    | Option.none, Option.none, true => some (1, configuredExecutionStrategy, true)
    | Option.none, Option.none, false =>
      some (configuredJobs.getD 1, configuredExecutionStrategy, false)
    | some 1, _, i => some (1, configuredExecutionStrategy, i)
    | some n, s, i =>
      if i then
        Option.none
      else
        match s with
        | Option.none | some .worktree => some (n, .worktree, false)
        | some .workingCopy => Option.none
  match step1 with
  | Option.none => Option.none
  | some (j, s, ri) =>
    if ri ≠ interactive then
      Option.none
    else
      some ((if j = 0 then numCpus else j), s, ri)

/-- The per-status counters accumulated by `print_summary` (lib.rs, lines
1588-1633). -/
structure SummaryCounts where
  num_passed : Nat
  num_failed : Nat
  num_skipped : Nat
  num_cached_results : Nat
  deriving DecidableEq, Repr

/-- Mirror of the per-commit counting match in `print_summary` (lib.rs, lines
1601-1632): skip-like statuses increment `num_skipped`; `Abort` and `Failed`
increment `num_failed`; `Passed` increments `num_passed`; cached `Failed` and
`Passed` results additionally increment `num_cached_results`. -/
def summaryCountStep (c : SummaryCounts) (status : TestStatus) : SummaryCounts :=
  match status with
  | .checkoutFailed | .spawnTestFailed _ | .alreadyInProgress
  | .readCacheFailed _ | .terminatedBySignal | .indeterminate _ =>
    { c with num_skipped := c.num_skipped + 1 }
  | .abort _ => { c with num_failed := c.num_failed + 1 }
  | .failed cached _ _ =>
    { c with
      num_failed := c.num_failed + 1
      num_cached_results := c.num_cached_results + (if cached then 1 else 0) }
  | .passed cached _ _ =>
    { c with
      num_passed := c.num_passed + 1
      num_cached_results := c.num_cached_results + (if cached then 1 else 0) }

/-- Summary counters for a whole run, folding `summaryCountStep` over the
ordered test outputs. -/
def countSummary (outputs : List TestStatus) : SummaryCounts :=
  outputs.foldl summaryCountStep ⟨0, 0, 0, 0⟩

/-- Mirror of the exit-code decision in `print_summary` (lib.rs, lines
1749-1773): a recorded `TestingAbortedError` returns 1 first; otherwise
search mode returns 0; otherwise 1 exactly when some result failed or was
skipped. -/
def print_summary_exit_code (outputs : List TestStatus)
    (testingAborted : Bool) (isSearch : Bool) : Nat :=
  if testingAborted then 1
  else if isSearch then 0
  else if 0 < (countSummary outputs).num_failed ∨
      0 < (countSummary outputs).num_skipped then 1
  else 0

/-- The "failed" summary bucket of `print_summary`: `Failed` and `Abort`
statuses. -/
def isFailedBucket : TestStatus → Bool
  | .abort _ | .failed _ _ _ => true
  | _ => false

/-- The "skipped" summary bucket of `print_summary`: every status other than
`Passed`, `Failed` and `Abort`. -/
def isSkippedBucket : TestStatus → Bool
  | .checkoutFailed | .spawnTestFailed _ | .alreadyInProgress
  | .readCacheFailed _ | .terminatedBySignal | .indeterminate _ => true
  | _ => false

/-- Mirror of `TestingAbortedError` (lib.rs, lines 920-924). -/
structure TestingAbortedError where
  commit_oid : Oid
  exit_code : Int
  deriving DecidableEq, Repr

/-- Mirror of `JobResult` from the worker module as consumed by `event_loop`:
a completed job's output, or a worker error. -/
inductive JobResultMsg where
  | done (commit_oid : Oid) (output : TestStatus)
  | jobError (worker_id : Nat) (commit_oid : Oid) (msg : String)
  deriving DecidableEq, Repr

/-- Mirror of `EventLoopOutput` (lib.rs, lines 1475-1479), restricted to the
fields the claims are about: the accumulated `test_outputs` map (modelled as
an association list with unique keys, in insertion order) and the recorded
abort error. -/
structure EventLoopOutput where
  test_outputs : List (Oid × TestStatus)
  testing_aborted_error : Option TestingAbortedError
  deriving DecidableEq, Repr

/-- HashMap insertion over the association-list model: replace the value if
the key is present, append otherwise. -/
def insertOutput (m : List (Oid × TestStatus)) (c : Oid) (st : TestStatus) :
    List (Oid × TestStatus) :=
  if m.any (fun p => p.1 == c) then
    m.map (fun p => if p.1 == c then (c, st) else p)
  else
    m ++ [(c, st)]

/-- Mirror of the body of `event_loop` (lib.rs, lines 1481-1575) for a run
without a search strategy, processing the sequence of messages delivered on
the result channel in arrival order (an empty remainder models the channel
closing). On `Done`, the output is inserted into `test_outputs`; an `Abort`
status then records `TestingAbortedError` and breaks immediately, leaving
all later messages unconsumed; otherwise the loop breaks once every one of
the `numCommits` candidates has an output. On `Error`, the whole run fails
with the worker's message. -/
def event_loop_go (numCommits : Nat) :
    List (Oid × TestStatus) → List JobResultMsg →
    Except (Nat × Oid × String) EventLoopOutput
  | acc, [] => .ok ⟨acc, Option.none⟩
  | _, .jobError w c msg :: _ => .error (w, c, msg)
  | acc, .done c st :: rest =>
    let acc' := insertOutput acc c st
    match st with
    | .abort ec => .ok ⟨acc', some ⟨c, ec⟩⟩
    | _ =>
      if acc'.length = numCommits then .ok ⟨acc', Option.none⟩
      else event_loop_go numCommits acc' rest

/-- Entry point of the event loop model: when the candidate set is empty the
source never blocks on the channel and returns immediately with no outputs
(lib.rs, lines 1491-1497). -/
def event_loop (numCommits : Nat) (msgs : List JobResultMsg) :
    Except (Nat × Oid × String) EventLoopOutput :=
  if numCommits = 0 then .ok ⟨[], Option.none⟩
  else event_loop_go numCommits [] msgs

/-- The commit oid carried by a result-channel message. -/
def msgKey : JobResultMsg → Oid
  | .done c _ => c
  | .jobError _ c _ => c

/-- The `test_outputs` map accumulated by the event loop after processing a
sequence of messages starting from `acc`: each `Done` message inserts its
output, worker errors insert nothing. -/
def accumulateFrom (acc : List (Oid × TestStatus)) (ms : List JobResultMsg) :
    List (Oid × TestStatus) :=
  ms.foldl
    (fun a m =>
      match m with
      | .done c st => insertOutput a c st
      | .jobError _ _ _ => a)
    acc

/-- The `test_outputs` map accumulated from the empty map. -/
def accumulateOutputs (ms : List JobResultMsg) : List (Oid × TestStatus) :=
  accumulateFrom [] ms

/-- Lookup in the unordered-results map (association list with unique keys). -/
def lookupOutput (m : List (Oid × TestStatus)) (c : Oid) : Option TestStatus :=
  (m.find? (fun p => p.1 == c)).map (fun p => p.2)

/-- HashMap removal over the association-list model. -/
def eraseKey (m : List (Oid × TestStatus)) (c : Oid) : List (Oid × TestStatus) :=
  m.filter (fun p => p.1 != c)

/-- Mirror of the `test_outputs_ordered` reassembly in `run_tests` (lib.rs,
lines 1438-1463): iterate the sorted input commits in order, and for each
commit that has an entry in the unordered map, remove it and append it to
the ordered map; commits without results are skipped. -/
def reorderOutputs : List Oid → List (Oid × TestStatus) → List (Oid × TestStatus)
  | [], _ => []
  | c :: cs, m =>
    match lookupOutput m c with
    | some st => (c, st) :: reorderOutputs cs (eraseKey m c)
    | Option.none => reorderOutputs cs m

/-- The commit fields `apply_fixes` reads from the repository for each
original commit (author, committer, raw message, tree, parents), per the
glossary's content-addressed commit model. -/
structure CommitData where
  author : String
  committer : String
  message : String
  tree_oid : Oid
  parent_oids : List Oid
  deriving DecidableEq, Repr

/-- Mirror of `struct Fix` in `apply_fixes` (lib.rs, lines 1814-1819). -/
structure Fix where
  original_commit_oid : Oid
  original_commit_parent_oids : List Oid
  fixed_commit_oid : Oid
  deriving DecidableEq, Repr

/-- Mirror of the `fixed_tree_oids` filter in `apply_fixes` (lib.rs, lines
1788-1812): the passing results that carry a fixed tree, in summary order. -/
def fixedTreeOids (outputs : List (Oid × TestStatus)) : List (Oid × Oid) :=
  outputs.filterMap (fun p =>
    match p.2 with
    | .passed _ (some fixed_tree_oid) _ => some (p.1, fixed_tree_oid)
    | _ => Option.none)

/-- The commit data handed to `repo.create_commit` for a fix (lib.rs, lines
1838-1845): the original commit's author, committer, message and parents,
with the fixed tree as root tree. -/
def makeFixedCommit (original : CommitData) (fixed_tree_oid : Oid) : CommitData :=
  { original with tree_oid := fixed_tree_oid }

/-- Mirror of the `fixes` construction in `apply_fixes` (lib.rs, lines
1820-1864): for each passing result with a fixed tree, create the fixed
commit via the external `create_commit` (a content-addressed id function
passed as a parameter, like the repository lookup `lookupCommit`), and skip
the entry when the new commit id equals the original commit id. -/
def computeFixes (lookupCommit : Oid → CommitData) (create_commit : CommitData → Oid)
    (outputs : List (Oid × TestStatus)) : List Fix :=
  (fixedTreeOids outputs).filterMap (fun p =>
    let original := lookupCommit p.1
    let fixed_commit_oid := create_commit (makeFixedCommit original p.2)
    if p.1 = fixed_commit_oid then
      Option.none
    else
      some { original_commit_oid := p.1
             original_commit_parent_oids := original.parent_oids
             fixed_commit_oid := fixed_commit_oid })

/-- The cache record written by `test_commit` for a command that exited with
`code`: the serialized form of the classified status. -/
def writtenRecord (opts : TestCommitOptions) (commitTreeOid : Oid)
    (snapshot : PostCommandSnapshot) (code : Int) : SerializedTestResult :=
  serializeTestResult opts code (classifyExitCode opts commitTreeOid snapshot code)

/-- Mirror of the rewritten-oids computation in `apply_fixes` (lib.rs, lines
1935-1975): under `--dry-run` the rebase plan is not executed
(`rewritten_oids` defaults to `None`) and the reported mapping is the
planned `original -> fixed` pairing from the fixes themselves; otherwise the
external rebase executor runs (its successful result passed as a thunk).
The boolean records whether `execute_rebase_plan` was invoked. -/
def apply_fixes_execute (dry_run : Bool)
    (executePlan : Unit → Option (List (Oid × Option Oid))) (fixes : List Fix) :
    List (Oid × Option Oid) × Bool :=
  if dry_run then
    (fixes.map (fun f => (f.original_commit_oid, some f.fixed_commit_oid)), false)
  else
    match executePlan () with
    | some rewritten => (rewritten, true)
    | Option.none =>
      (fixes.map (fun f => (f.original_commit_oid, some f.fixed_commit_oid)), true)

/-! Theorems. -/

/-- C1: for every test command execution yielding a numeric exit code, the
resulting `TestStatus` is determined by the exit code: 0 maps to `Passed`,
125 to `Indeterminate`, 127 to `Abort`, and every other non-zero code to
`Failed`; a child terminated without a numeric exit code (killed by a
signal) yields `TerminatedBySignal`; in particular exit codes 125 and 127
never produce `Failed` or `Passed`. -/
theorem C1_exit_code_classification (encode : SerializedTestResult → String)
    (opts : TestCommitOptions) (commitTreeOid : Oid)
    (snapshot : PostCommandSnapshot) :
    ((test_commit encode opts commitTreeOid snapshot (.exited 0)).1 =
      .passed false (computeFixedTree commitTreeOid snapshot).1 opts.interactive) ∧
    ((test_commit encode opts commitTreeOid snapshot (.exited 125)).1 =
      .indeterminate 125) ∧
    ((test_commit encode opts commitTreeOid snapshot (.exited 127)).1 =
      .abort 127) ∧
    (∀ c : Int, c ≠ 0 → c ≠ 125 → c ≠ 127 →
      (test_commit encode opts commitTreeOid snapshot (.exited c)).1 =
        .failed false c opts.interactive) ∧
    ((test_commit encode opts commitTreeOid snapshot .killedBySignal).1 =
      .terminatedBySignal) ∧
    (∀ c : Int, c = 125 ∨ c = 127 →
      (∀ cached ec i,
        (test_commit encode opts commitTreeOid snapshot (.exited c)).1 ≠
          .failed cached ec i) ∧
      (∀ cached ft i,
        (test_commit encode opts commitTreeOid snapshot (.exited c)).1 ≠
          .passed cached ft i)) := by
  refine ⟨?_, ?_, ?_, ?_, ?_, ?_⟩
  · simp [test_commit, classifyExitCode, INDETERMINATE_EXIT_CODE, ABORT_EXIT_CODE]
  · simp [test_commit, classifyExitCode, INDETERMINATE_EXIT_CODE, ABORT_EXIT_CODE]
  · simp [test_commit, classifyExitCode, INDETERMINATE_EXIT_CODE, ABORT_EXIT_CODE]
  · intro c h0 h125 h127
    simp [test_commit, classifyExitCode, INDETERMINATE_EXIT_CODE, ABORT_EXIT_CODE,
      h0, h125, h127]
  · simp [test_commit]
  · rintro c (rfl | rfl) <;>
      simp [test_commit, classifyExitCode, INDETERMINATE_EXIT_CODE, ABORT_EXIT_CODE]

/-- Witness for C1 at concrete inputs: exit code 3 is neither 0, 125 nor
127, and classifies as `Failed`. -/
theorem C1_exit_code_classification_witness :
    (test_commit (fun _ => "") ⟨"true", false⟩ 1 ⟨.none, some 1⟩ (.exited 3)).1 =
      .failed false 3 false :=
  (C1_exit_code_classification (fun _ => "") ⟨"true", false⟩ 1 ⟨.none, some 1⟩).2.2.2.1
    3 (by decide) (by decide) (by decide)

/-- C10 (implicit): when the test command fails to spawn or the child is
terminated by a signal, `test_commit` returns before any cache record is
written, so the `result` file (truncated to empty at acquisition) stays
empty; a subsequent acquisition with the lock free then treats the slot as
absent and re-acquires it for execution, so these outcomes are never served
from cache. -/
theorem C10_failures_not_cached (encode : SerializedTestResult → String)
    (parse : String → Except String SerializedTestResult)
    (opts : TestCommitOptions) (commitTreeOid : Oid)
    (snapshot : PostCommandSnapshot) (msg : String) :
    test_commit encode opts commitTreeOid snapshot (.spawnFailed msg) =
      (.spawnTestFailed msg, some "") ∧
    test_commit encode opts commitTreeOid snapshot .killedBySignal =
      (.terminatedBySignal, some "") ∧
    make_test_files parse true (some "") = (.notCached, some "") := by
  refine ⟨rfl, rfl, ?_⟩
  simp [make_test_files]

/-- C4: cache-slot acquisition. A failed non-blocking pid-lock attempt
yields `AlreadyInProgress` with nothing written; with the lock held, an
empty (or missing) result file is treated as absent and the slot is acquired
with its files truncated; a non-empty unparseable file yields
`ReadCacheFailed`; and a non-empty parsed record yields the cached verdict
derived from its exit code (0 giving `Passed` with `cached = true`, 125
`Indeterminate`, 127 `Abort`, and any other code `Failed` with
`cached = true`). -/
theorem C4_cache_acquisition (parse : String → Except String SerializedTestResult)
    (contents : SlotContents) :
    (make_test_files parse false contents =
      (.cachedResult .alreadyInProgress, contents)) ∧
    (make_test_files parse true (some "") = (.notCached, some "")) ∧
    (make_test_files parse true Option.none = (.notCached, some "")) ∧
    (∀ s msg, s ≠ "" → parse s = .error msg →
      make_test_files parse true (some s) =
        (.cachedResult (.readCacheFailed msg), some s)) ∧
    (∀ s r, s ≠ "" → parse s = .ok r →
      make_test_files parse true (some s) =
        (.cachedResult (statusOfCachedRecord r), some s)) ∧
    (∀ r : SerializedTestResult,
      (r.exit_code = 0 →
        statusOfCachedRecord r = .passed true r.fixed_tree_oid r.interactive) ∧
      (r.exit_code = 125 → statusOfCachedRecord r = .indeterminate 125) ∧
      (r.exit_code = 127 → statusOfCachedRecord r = .abort 127) ∧
      (r.exit_code ≠ 0 → r.exit_code ≠ 125 → r.exit_code ≠ 127 →
        statusOfCachedRecord r = .failed true r.exit_code r.interactive)) := by
  refine ⟨?_, ?_, ?_, ?_, ?_, ?_⟩
  · simp [make_test_files]
  · simp [make_test_files]
  · simp [make_test_files]
  · intro s msg hs hp
    simp [make_test_files, hs, hp]
  · intro s r hs hp
    simp [make_test_files, hs, hp]
  · intro r
    refine ⟨?_, ?_, ?_, ?_⟩
    · intro h
      simp [statusOfCachedRecord, h]
    · intro h
      simp [statusOfCachedRecord, h, INDETERMINATE_EXIT_CODE, ABORT_EXIT_CODE]
    · intro h
      simp [statusOfCachedRecord, h, INDETERMINATE_EXIT_CODE, ABORT_EXIT_CODE]
    · intro h0 h125 h127
      simp [statusOfCachedRecord, h0, h125, h127, INDETERMINATE_EXIT_CODE,
        ABORT_EXIT_CODE]

/-- Witness for C4 at concrete inputs: a parse failure on a non-empty file
yields `ReadCacheFailed`, and a parsed record with exit code 9 yields a
cached `Failed`. -/
theorem C4_cache_acquisition_witness :
    make_test_files (fun _ => .error "bad json") true (some "garbage") =
      (.cachedResult (.readCacheFailed "bad json"), some "garbage") ∧
    statusOfCachedRecord ⟨"true", 9, Option.none, false⟩ =
      .failed true 9 false := by
  constructor
  · exact (C4_cache_acquisition (fun _ => .error "bad json") Option.none).2.2.2.1
      "garbage" "bad json" (by decide) rfl
  · exact ((C4_cache_acquisition (fun _ => .error "bad json")
        Option.none).2.2.2.2.2 ⟨"true", 9, Option.none, false⟩).2.2.2
      (by decide) (by decide) (by decide)

/-- Counterexample to C5 as stated: write the cache record produced by a
test command exiting 125 (using an encode/parse pair that round-trips this
record exactly), then read the slot back. The derived status is
`Indeterminate`, which carries no `cached` field at all, so the claim that
the derived `TestStatus` has `cached = true` fails at this input. -/
theorem C5_counterexample :
    (test_commit (fun _ => "r") ⟨"true", false⟩ 1 ⟨.none, some 1⟩
        (.exited 125)).2 = some "r" ∧
    (fun _ => .ok (writtenRecord ⟨"true", false⟩ 1 ⟨.none, some 1⟩ 125) :
        String → Except String SerializedTestResult) "r" =
      .ok (writtenRecord ⟨"true", false⟩ 1 ⟨.none, some 1⟩ 125) ∧
    (make_test_files
        (fun _ => .ok (writtenRecord ⟨"true", false⟩ 1 ⟨.none, some 1⟩ 125))
        true (some "r")).1 =
      .cachedResult (.indeterminate 125) ∧
    TestStatus.cachedField (.indeterminate 125) ≠ some true := by
  refine ⟨rfl, rfl, ?_, by decide⟩
  simp [make_test_files, writtenRecord, serializeTestResult, classifyExitCode,
    statusOfCachedRecord, INDETERMINATE_EXIT_CODE, ABORT_EXIT_CODE]

/-- C5 (amended): writing the cache record for a command that exited with
`code` and then reading the same slot back (lock free, with an encode/parse
pair faithful on that record) yields exactly the written record and the
cached verdict derived from it; the derived status carries `cached = true`
whenever `code` is 0 or a non-special non-zero code (the `Passed` and
`Failed` cases), while the special codes 125 and 127 read back as
`Indeterminate`/`Abort`, which carry no `cached` field. -/
theorem C5_cache_round_trip (encode : SerializedTestResult → String)
    (parse : String → Except String SerializedTestResult)
    (opts : TestCommitOptions) (commitTreeOid : Oid)
    (snapshot : PostCommandSnapshot) (code : Int)
    (hrt : parse (encode (writtenRecord opts commitTreeOid snapshot code)) =
      .ok (writtenRecord opts commitTreeOid snapshot code))
    (hne : encode (writtenRecord opts commitTreeOid snapshot code) ≠ "") :
    (test_commit encode opts commitTreeOid snapshot (.exited code)).2 =
      some (encode (writtenRecord opts commitTreeOid snapshot code)) ∧
    make_test_files parse true
        (test_commit encode opts commitTreeOid snapshot (.exited code)).2 =
      (.cachedResult
        (statusOfCachedRecord (writtenRecord opts commitTreeOid snapshot code)),
        some (encode (writtenRecord opts commitTreeOid snapshot code))) ∧
    (code ≠ 125 → code ≠ 127 →
      (statusOfCachedRecord
        (writtenRecord opts commitTreeOid snapshot code)).cachedField =
          some true) ∧
    (code = 125 ∨ code = 127 →
      (statusOfCachedRecord
        (writtenRecord opts commitTreeOid snapshot code)).cachedField =
          Option.none) := by
  have hw : (test_commit encode opts commitTreeOid snapshot (.exited code)).2 =
      some (encode (writtenRecord opts commitTreeOid snapshot code)) := rfl
  have hcode : (writtenRecord opts commitTreeOid snapshot code).exit_code = code := rfl
  refine ⟨hw, ?_, ?_, ?_⟩
  · rw [hw]
    simp [make_test_files, hne, hrt]
  · intro h125 h127
    by_cases h0 : code = 0
    · subst h0
      simp [statusOfCachedRecord, writtenRecord, serializeTestResult,
        TestStatus.cachedField]
    · simp [statusOfCachedRecord, hcode, h0, h125, h127,
        INDETERMINATE_EXIT_CODE, ABORT_EXIT_CODE, TestStatus.cachedField]
  · rintro (rfl | rfl) <;>
      simp [statusOfCachedRecord, hcode, INDETERMINATE_EXIT_CODE,
        ABORT_EXIT_CODE, TestStatus.cachedField]

/-- Witness for C5 (amended) at concrete inputs: a command exiting 7 writes
a record that reads back as a cached `Failed`, whose `cached` field is
`true`. -/
theorem C5_cache_round_trip_witness :
    (statusOfCachedRecord
      (writtenRecord ⟨"true", false⟩ 1 ⟨.none, some 1⟩ 7)).cachedField =
        some true :=
  (C5_cache_round_trip (fun _ => "x")
      (fun _ => .ok (writtenRecord ⟨"true", false⟩ 1 ⟨.none, some 1⟩ 7))
      ⟨"true", false⟩ 1 ⟨.none, some 1⟩ 7 rfl (by decide)).2.2.1
    (by decide) (by decide)

/-- Counterexample to C3 as stated: resolving `--interactive --strategy
worktree` (no `--jobs` flag) succeeds and yields the `Worktree` execution
strategy, so interactive mode does not force the strategy to `WorkingCopy`,
and combining interactive mode with a different strategy is not rejected. -/
theorem C3_counterexample :
    resolveJobsStrategyInteractive Option.none (some .worktree) true
        Option.none Option.none 4 =
      some (1, .worktree, true) ∧
    TestExecutionStrategy.worktree ≠ TestExecutionStrategy.workingCopy := by
  refine ⟨rfl, by decide⟩

/-- C3 (amended): when options are resolved with interactive mode requested
and resolution succeeds, the resolved job count is 1 (and interactive mode
is preserved); requesting `--jobs N` with `N ≠ 1` together with
`--interactive` is rejected as a configuration error (the resolver returns
before any test subprocess is spawned, and the caller exits with code 1);
the resolved execution strategy is whichever strategy was requested or
configured — in particular `--interactive --strategy worktree` resolves to
the `Worktree` strategy with one job. -/
theorem C3_interactive_resolution (jobs : Option Nat)
    (strategy : Option TestExecutionStrategy) (configuredJobs : Option Nat)
    (configStrategy : Option TestExecutionStrategy) (numCpus : Nat) :
    (∀ j s ri,
      resolveJobsStrategyInteractive jobs strategy true configuredJobs
          configStrategy numCpus = some (j, s, ri) →
        j = 1 ∧ ri = true) ∧
    (∀ n, n ≠ 1 → jobs = some n →
      resolveJobsStrategyInteractive jobs strategy true configuredJobs
          configStrategy numCpus = Option.none) ∧
    (resolveJobsStrategyInteractive Option.none (some .worktree) true
        configuredJobs configStrategy numCpus = some (1, .worktree, true)) := by
  refine ⟨?_, ?_, ?_⟩
  · intro j s ri h
    rcases jobs with _ | n
    · rcases strategy with _ | st
      · simp [resolveJobsStrategyInteractive] at h
        exact ⟨h.1.symm, h.2.2⟩
      · cases st <;> simp [resolveJobsStrategyInteractive] at h <;>
          exact ⟨h.1.symm, h.2.2⟩
    · rcases n with _ | _ | m
      · simp [resolveJobsStrategyInteractive] at h
      · simp [resolveJobsStrategyInteractive] at h
        exact ⟨h.1.symm, h.2.2⟩
      · simp [resolveJobsStrategyInteractive] at h
  · rintro n hn rfl
    rcases n with _ | _ | m
    · simp [resolveJobsStrategyInteractive]
    · exact absurd rfl hn
    · simp [resolveJobsStrategyInteractive]
  · rfl

/-- Witness for C3 (amended) at concrete inputs: `--interactive --jobs 2` is
a configuration error, and `--interactive --jobs 1 --strategy working-copy`
resolves to one job. -/
theorem C3_interactive_resolution_witness :
    resolveJobsStrategyInteractive (some 2) Option.none true Option.none
        Option.none 4 = Option.none ∧
    (1 = 1 ∧ true = true) := by
  constructor
  · exact (C3_interactive_resolution (some 2) Option.none Option.none
      Option.none 4).2.1 2 (by decide) rfl
  · exact (C3_interactive_resolution (some 1) (some .workingCopy) Option.none
      Option.none 4).1 1 .workingCopy true rfl

/-- C6: for a command exiting 0, the `Passed` status carries
`fixed_tree = some t` exactly when the post-command snapshot is clean or
contains only unstaged changes and its unstaged tree `t` differs from the
tested commit's tree; a snapshot with staged changes or conflicts produces
the warning and no fixed tree; and the persisted `fixed_tree` field is
`None` for every status other than `Passed`. -/
theorem C6_fixed_tree (encode : SerializedTestResult → String)
    (opts : TestCommitOptions) (commitTreeOid : Oid)
    (snapshot : PostCommandSnapshot) :
    (∀ t, (computeFixedTree commitTreeOid snapshot).1 = some t ↔
      ((snapshot.changesType = .none ∨ snapshot.changesType = .unstaged) ∧
        snapshot.unstagedTreeOid = some t ∧ t ≠ commitTreeOid)) ∧
    ((snapshot.changesType = .staged ∨ snapshot.changesType = .conflicts) →
      computeFixedTree commitTreeOid snapshot = (Option.none, true)) ∧
    ((test_commit encode opts commitTreeOid snapshot (.exited 0)).1 =
      .passed false (computeFixedTree commitTreeOid snapshot).1
        opts.interactive) ∧
    (∀ status exit_code,
      (∀ cached ft i, status ≠ TestStatus.passed cached ft i) →
      (serializeTestResult opts exit_code status).fixed_tree_oid =
        Option.none) := by
  refine ⟨?_, ?_, ?_, ?_⟩
  · intro t
    rcases hc : snapshot.changesType <;>
      rcases hu : snapshot.unstagedTreeOid with _ | u <;>
      simp [computeFixedTree, hc, hu] <;>
      by_cases he : u = commitTreeOid <;>
      simp [he] <;>
      rintro rfl <;>
      simp_all
  · rintro (hc | hc) <;> simp [computeFixedTree, hc]
  · simp [test_commit, classifyExitCode, INDETERMINATE_EXIT_CODE,
      ABORT_EXIT_CODE]
  · intro status exit_code hnp
    cases status <;> simp [serializeTestResult] <;>
      exact absurd rfl (hnp _ _ _)

/-- Witness for C6 at concrete inputs: an unstaged-only snapshot whose tree
differs from the commit's tree records that tree as the fixed tree. -/
theorem C6_fixed_tree_witness :
    ((computeFixedTree 1 ⟨.unstaged, some 2⟩).1 = some 2 ↔
      ((WorkingCopyChangesType.unstaged = .none ∨
        WorkingCopyChangesType.unstaged = .unstaged) ∧
        (some 2 : Option Oid) = some 2 ∧ 2 ≠ 1)) ∧
    (serializeTestResult ⟨"true", false⟩ 9
        (.failed false 9 false)).fixed_tree_oid = Option.none := by
  constructor
  · exact (C6_fixed_tree (fun _ => "") ⟨"true", false⟩ 1 ⟨.unstaged, some 2⟩).1 2
  · exact (C6_fixed_tree (fun _ => "") ⟨"true", false⟩ 1
      ⟨.unstaged, some 2⟩).2.2.2 (.failed false 9 false) 9 (by intro c f i h; cases h)

/-- The `num_failed` counter of the summary fold counts exactly the results
in the failed bucket. -/
theorem foldl_summary_num_failed (l : List TestStatus) (c : SummaryCounts) :
    (l.foldl summaryCountStep c).num_failed =
      c.num_failed + l.countP isFailedBucket := by
  induction l generalizing c with
  | nil => simp
  | cons st rest ih =>
    rw [List.foldl_cons, ih, List.countP_cons]
    cases st <;> simp [summaryCountStep, isFailedBucket] <;> omega

/-- The `num_skipped` counter of the summary fold counts exactly the results
in the skipped bucket. -/
theorem foldl_summary_num_skipped (l : List TestStatus) (c : SummaryCounts) :
    (l.foldl summaryCountStep c).num_skipped =
      c.num_skipped + l.countP isSkippedBucket := by
  induction l generalizing c with
  | nil => simp
  | cons st rest ih =>
    rw [List.foldl_cons, ih, List.countP_cons]
    cases st <;> simp [summaryCountStep, isSkippedBucket] <;> omega

/-- Having a positive failed or skipped count is the same as some result
lying in the failed-or-skipped buckets. -/
theorem summary_counts_pos_iff_any (l : List TestStatus) :
    (0 < (countSummary l).num_failed ∨ 0 < (countSummary l).num_skipped) ↔
      l.any (fun st => isFailedBucket st || isSkippedBucket st) = true := by
  rw [countSummary, foldl_summary_num_failed, foldl_summary_num_skipped]
  simp only [Nat.zero_add, List.countP_pos_iff, List.any_eq_true, Bool.or_eq_true]
  constructor
  · rintro (⟨a, ha, hp⟩ | ⟨a, ha, hp⟩)
    · exact ⟨a, ha, Or.inl hp⟩
    · exact ⟨a, ha, Or.inr hp⟩
  · rintro ⟨a, ha, hp | hp⟩
    · exact Or.inl ⟨a, ha, hp⟩
    · exact Or.inr ⟨a, ha, hp⟩

/-- C2: for a completed run (where the recorded abort error corresponds
exactly to an `Abort` result being present, as the event loop guarantees),
the summary exit code is 0 whenever a search strategy was used and no abort
occurred; otherwise it is 1 exactly when at least one result is in the
failed bucket (`Failed`/`Abort`) or the skipped bucket (all remaining
non-`Passed` statuses); and an `Abort` result forces exit code 1 regardless
of the search strategy. -/
theorem C2_summary_exit_code (outputs : List TestStatus) (isSearch : Bool)
    (testingAborted : Bool)
    (h : testingAborted = outputs.any TestStatus.isAbort) :
    ((isSearch = true ∧ outputs.any TestStatus.isAbort = false) →
      print_summary_exit_code outputs testingAborted isSearch = 0) ∧
    ((isSearch = false ∨ outputs.any TestStatus.isAbort = true) →
      (print_summary_exit_code outputs testingAborted isSearch = 1 ↔
        outputs.any (fun st => isFailedBucket st || isSkippedBucket st) =
          true)) ∧
    (outputs.any TestStatus.isAbort = true →
      print_summary_exit_code outputs testingAborted isSearch = 1) := by
  subst h
  refine ⟨?_, ?_, ?_⟩
  · rintro ⟨rfl, hab⟩
    simp [print_summary_exit_code, hab]
  · intro hcase
    by_cases hab : outputs.any TestStatus.isAbort = true
    · constructor
      · intro _
        rcases List.any_eq_true.mp hab with ⟨st, hmem, habort⟩
        refine List.any_eq_true.mpr ⟨st, hmem, ?_⟩
        cases st <;> simp [TestStatus.isAbort] at habort ⊢ <;>
          simp [isFailedBucket, isSkippedBucket]
      · intro _
        simp [print_summary_exit_code, hab]
    · have hs : isSearch = false := by
        rcases hcase with hc | hc
        · exact hc
        · exact absurd hc hab
      subst hs
      rw [Bool.not_eq_true] at hab
      rw [print_summary_exit_code, hab]
      simp only [Bool.false_eq_true, if_false]
      by_cases hfs : outputs.any
          (fun st => isFailedBucket st || isSkippedBucket st) = true
      · rw [if_pos ((summary_counts_pos_iff_any outputs).mpr hfs)]
        simp [hfs]
      · rw [if_neg (fun hc => hfs ((summary_counts_pos_iff_any outputs).mp hc))]
        simp [hfs]
  · intro hab
    simp [print_summary_exit_code, hab]

/-- Witness for C2 at concrete inputs: a run of one `Passed` and one
`Failed` result without a search strategy exits 1, and the same results
under a search strategy (no abort) exit 0. -/
theorem C2_summary_exit_code_witness :
    print_summary_exit_code
      [.passed false Option.none false, .failed false 1 false]
      false false = 1 ∧
    print_summary_exit_code
      [.passed false Option.none false, .failed false 1 false]
      false true = 0 := by
  constructor
  · exact ((C2_summary_exit_code
        [.passed false Option.none false, .failed false 1 false]
        false false (by decide)).2.1 (Or.inl rfl)).mpr (by decide)
  · exact (C2_summary_exit_code
        [.passed false Option.none false, .failed false 1 false]
        true false (by decide)).1 ⟨rfl, by decide⟩

/-- Unfolding lemma for `lookupOutput` on a cons cell. -/
theorem lookupOutput_cons (p : Oid × TestStatus) (m : List (Oid × TestStatus))
    (d : Oid) :
    lookupOutput (p :: m) d =
      if p.1 = d then some p.2 else lookupOutput m d := by
  by_cases h : p.1 = d <;> simp [lookupOutput, List.find?_cons, h]

/-- Unfolding lemma for `eraseKey` on a cons cell. -/
theorem eraseKey_cons (p : Oid × TestStatus) (m : List (Oid × TestStatus))
    (c : Oid) :
    eraseKey (p :: m) c =
      if p.1 = c then eraseKey m c else p :: eraseKey m c := by
  by_cases h : p.1 = c <;> simp [eraseKey, List.filter_cons, h]

/-- Looking a key up after removing a (possibly different) key. -/
theorem lookupOutput_eraseKey (m : List (Oid × TestStatus)) (c d : Oid) :
    lookupOutput (eraseKey m c) d =
      if d = c then Option.none else lookupOutput m d := by
  induction m with
  | nil =>
    simp only [eraseKey, List.filter_nil, lookupOutput, List.find?_nil,
      Option.map_none']
    split <;> rfl
  | cons p rest ih =>
    rw [eraseKey_cons]
    by_cases hpc : p.1 = c
    · rw [if_pos hpc, ih, lookupOutput_cons]
      by_cases hdc : d = c
      · simp [hdc]
      · rw [if_neg hdc, if_neg hdc, if_neg (fun h : p.1 = d => hdc (h ▸ hpc))]
    · rw [if_neg hpc, lookupOutput_cons, lookupOutput_cons]
      by_cases hpd : p.1 = d
      · rw [if_pos hpd, if_neg (fun h : d = c => hpc (hpd.trans h)), if_pos hpd]
      · rw [if_neg hpd, if_neg hpd, ih]

/-- The reordered output map depends only on the key-to-value mapping of the
unordered results, not on their arrival order. -/
theorem reorderOutputs_congr (commits : List Oid) :
    ∀ u1 u2 : List (Oid × TestStatus),
      (∀ c, lookupOutput u1 c = lookupOutput u2 c) →
      reorderOutputs commits u1 = reorderOutputs commits u2 := by
  induction commits with
  | nil => intro u1 u2 _; rfl
  | cons c cs ih =>
    intro u1 u2 h
    simp only [reorderOutputs]
    rw [← h c]
    cases hc : lookupOutput u1 c with
    | none => exact ih u1 u2 h
    | some st =>
      refine congrArg _ (ih _ _ ?_)
      intro d
      rw [lookupOutput_eraseKey, lookupOutput_eraseKey, h d]

/-- The keys of the reordered output map are the input commits, in input
order, restricted to those that have a result. -/
theorem reorderOutputs_keys (commits : List Oid) :
    ∀ u : List (Oid × TestStatus), commits.Nodup →
      (reorderOutputs commits u).map Prod.fst =
        commits.filter (fun c => (lookupOutput u c).isSome) := by
  induction commits with
  | nil => intro u _; rfl
  | cons c cs ih =>
    intro u hnd
    rw [List.nodup_cons] at hnd
    obtain ⟨hc, hcs⟩ := hnd
    simp only [reorderOutputs, List.filter_cons]
    cases hu : lookupOutput u c with
    | none =>
      simp only [hu, Option.isSome_none, Bool.false_eq_true, if_false]
      exact ih u hcs
    | some st =>
      simp only [hu, Option.isSome_some, if_true, List.map_cons]
      rw [ih (eraseKey u c) hcs]
      refine congrArg _ (List.filter_congr ?_)
      intro d hd
      have hdc : d ≠ c := fun h => hc (h ▸ hd)
      rw [lookupOutput_eraseKey, if_neg hdc]

/-- C9: the ordered output map presented to the summary lists commits in
exactly the order of the sorted candidate input list, restricted to commits
that have results; any two runs whose workers deliver the same per-commit
results in different arrival orders produce identical ordered output. -/
theorem C9_deterministic_output_order (commits : List Oid)
    (u1 u2 : List (Oid × TestStatus)) (hnd : commits.Nodup)
    (heq : ∀ c, lookupOutput u1 c = lookupOutput u2 c) :
    reorderOutputs commits u1 = reorderOutputs commits u2 ∧
    (reorderOutputs commits u1).map Prod.fst =
      commits.filter (fun c => (lookupOutput u1 c).isSome) := by
  exact ⟨reorderOutputs_congr commits u1 u2 heq,
    reorderOutputs_keys commits u1 hnd⟩

/-- Witness for C9 at concrete inputs: two arrival orders of the same two
results reorder identically, and the summary order follows the input list. -/
theorem C9_deterministic_output_order_witness :
    reorderOutputs [1, 2]
        [(1, .passed false Option.none false), (2, .failed false 1 false)] =
      reorderOutputs [1, 2]
        [(2, .failed false 1 false), (1, .passed false Option.none false)] ∧
    (reorderOutputs [1, 2]
        [(1, .passed false Option.none false), (2, .failed false 1 false)]).map
      Prod.fst = [1, 2] := by
  have h := C9_deterministic_output_order [1, 2]
    [(1, .passed false Option.none false), (2, .failed false 1 false)]
    [(2, .failed false 1 false), (1, .passed false Option.none false)]
    (by decide)
    (by
      intro c
      rw [lookupOutput_cons, lookupOutput_cons, lookupOutput_cons,
        lookupOutput_cons]
      by_cases h1 : (1 : Oid) = c
      · subst h1
        norm_num
      · by_cases h2 : (2 : Oid) = c <;> simp [h1, h2])
  exact ⟨h.1, h.2.trans (by decide)⟩

/-- C7: in fix mode, every fix produced by the planner comes from a passing
result with a fixed tree, and its new commit is created from data with the
same author, committer, message and parents as the original commit but with
the fixed tree as root tree; entries whose created commit id equals the
original commit id are skipped (so every retained fix has a different id,
and if every entry collapses to its original the fix list is empty); and
under `--dry-run` the rebase plan is not executed and the reported mapping
is the planned original-to-fixed pairing. -/
theorem C7_fix_planning (lookupCommit : Oid → CommitData)
    (create_commit : CommitData → Oid) (outputs : List (Oid × TestStatus))
    (executePlan : Unit → Option (List (Oid × Option Oid))) :
    (∀ f ∈ computeFixes lookupCommit create_commit outputs,
      ∃ fixed_tree_oid,
        (f.original_commit_oid, fixed_tree_oid) ∈ fixedTreeOids outputs ∧
        f.fixed_commit_oid =
          create_commit
            (makeFixedCommit (lookupCommit f.original_commit_oid)
              fixed_tree_oid) ∧
        (makeFixedCommit (lookupCommit f.original_commit_oid)
            fixed_tree_oid).author =
          (lookupCommit f.original_commit_oid).author ∧
        (makeFixedCommit (lookupCommit f.original_commit_oid)
            fixed_tree_oid).committer =
          (lookupCommit f.original_commit_oid).committer ∧
        (makeFixedCommit (lookupCommit f.original_commit_oid)
            fixed_tree_oid).message =
          (lookupCommit f.original_commit_oid).message ∧
        (makeFixedCommit (lookupCommit f.original_commit_oid)
            fixed_tree_oid).parent_oids =
          (lookupCommit f.original_commit_oid).parent_oids ∧
        (makeFixedCommit (lookupCommit f.original_commit_oid)
            fixed_tree_oid).tree_oid = fixed_tree_oid ∧
        f.original_commit_parent_oids =
          (lookupCommit f.original_commit_oid).parent_oids ∧
        f.fixed_commit_oid ≠ f.original_commit_oid) ∧
    (∀ origOid ft, (origOid, ft) ∈ fixedTreeOids outputs →
      create_commit (makeFixedCommit (lookupCommit origOid) ft) ≠ origOid →
      ({ original_commit_oid := origOid
         original_commit_parent_oids := (lookupCommit origOid).parent_oids
         fixed_commit_oid :=
           create_commit (makeFixedCommit (lookupCommit origOid) ft) } : Fix) ∈
        computeFixes lookupCommit create_commit outputs) ∧
    ((∀ p ∈ fixedTreeOids outputs,
        create_commit (makeFixedCommit (lookupCommit p.1) p.2) = p.1) →
      computeFixes lookupCommit create_commit outputs = []) ∧
    (apply_fixes_execute true executePlan
        (computeFixes lookupCommit create_commit outputs) =
      ((computeFixes lookupCommit create_commit outputs).map
        (fun f => (f.original_commit_oid, some f.fixed_commit_oid)), false)) := by
  refine ⟨?_, ?_, ?_, ?_⟩
  · intro f hf
    rw [computeFixes, List.mem_filterMap] at hf
    obtain ⟨p, hp, hg⟩ := hf
    by_cases hc : p.1 = create_commit (makeFixedCommit (lookupCommit p.1) p.2)
    · rw [if_pos hc] at hg
      exact absurd hg (by simp)
    · rw [if_neg hc] at hg
      cases hg
      refine ⟨p.2, ?_, rfl, rfl, rfl, rfl, rfl, rfl, rfl, fun h => hc h.symm⟩
      simpa using hp
  · intro origOid ft hmem hne
    rw [computeFixes, List.mem_filterMap]
    exact ⟨(origOid, ft), hmem, by rw [if_neg (fun h => hne h.symm)]⟩
  · intro h
    rw [computeFixes, List.filterMap_eq_nil_iff]
    intro p hp
    rw [if_pos ((h p hp).symm)]
  · simp [apply_fixes_execute]

/-- Witness for C7 at concrete inputs: a passing result whose created fixed
commit id differs from the original produces the corresponding fix entry. -/
theorem C7_fix_planning_witness :
    ({ original_commit_oid := 1
       original_commit_parent_oids := [6]
       fixed_commit_oid := 42 } : Fix) ∈
      computeFixes (fun o => ⟨"a", "c", "m", o + 100, [o + 5]⟩)
        (fun d => if d.tree_oid = 20 then 2 else 42)
        [(1, .passed false (some 10) false), (2, .passed false (some 20) false)] := by
  have h := (C7_fix_planning (fun o => ⟨"a", "c", "m", o + 100, [o + 5]⟩)
    (fun d => if d.tree_oid = 20 then 2 else 42)
    [(1, .passed false (some 10) false), (2, .passed false (some 20) false)]
    (fun _ => Option.none)).2.1 1 10 (by decide) (by decide)
  simpa using h

/-- An inserted binding is a member of the map after insertion. -/
theorem mem_insertOutput_self (m : List (Oid × TestStatus)) (c : Oid)
    (st : TestStatus) : (c, st) ∈ insertOutput m c st := by
  unfold insertOutput
  by_cases h : m.any (fun p => p.1 == c) = true
  · rw [if_pos h]
    rcases List.any_eq_true.mp h with ⟨p, hp, hpc⟩
    refine List.mem_map.mpr ⟨p, hp, ?_⟩
    simp only [hpc, if_true]
  · rw [if_neg h]
    exact List.mem_append_right _ (List.mem_singleton.mpr rfl)

/-- Insertion of a different key preserves existing bindings. -/
theorem mem_insertOutput_of_ne (m : List (Oid × TestStatus)) (c d : Oid)
    (st st' : TestStatus) (hmem : (d, st') ∈ m) (hne : d ≠ c) :
    (d, st') ∈ insertOutput m c st := by
  unfold insertOutput
  by_cases h : m.any (fun p => p.1 == c) = true
  · rw [if_pos h]
    refine List.mem_map.mpr ⟨(d, st'), hmem, ?_⟩
    simp [hne]
  · rw [if_neg h]
    exact List.mem_append_left _ hmem

/-- Insertion introduces no binding for an absent, different key. -/
theorem not_mem_insertOutput (m : List (Oid × TestStatus)) (c d : Oid)
    (st : TestStatus) (hd : ∀ st', (d, st') ∉ m) (hne : d ≠ c) :
    ∀ st', (d, st') ∉ insertOutput m c st := by
  intro st' hmem
  unfold insertOutput at hmem
  by_cases h : m.any (fun p => p.1 == c) = true
  · rw [if_pos h] at hmem
    rcases List.mem_map.mp hmem with ⟨p, hp, himg⟩
    by_cases hpc : p.1 == c
    · rw [if_pos hpc] at himg
      exact hne (congrArg Prod.fst himg).symm
    · rw [if_neg hpc] at himg
      exact hd st' (himg ▸ hp)
  · rw [if_neg h] at hmem
    rcases List.mem_append.mp hmem with hmem' | hmem'
    · exact hd st' hmem'
    · exact hne (congrArg Prod.fst (List.mem_singleton.mp hmem'))

/-- A map with no binding for key `c` has no entry whose key tests equal to
`c`. -/
theorem any_key_eq_false (m : List (Oid × TestStatus)) (c : Oid)
    (h : ∀ st', (c, st') ∉ m) : m.any (fun p => p.1 == c) = false := by
  rw [List.any_eq_false]
  rintro ⟨d, st'⟩ hp
  by_contra hne
  rw [beq_iff_eq] at hne
  exact h st' (hne ▸ hp)

/-- Inserting a fresh key grows the map by one entry. -/
theorem insertOutput_length_of_fresh (m : List (Oid × TestStatus)) (c : Oid)
    (st : TestStatus) (h : ∀ st', (c, st') ∉ m) :
    (insertOutput m c st).length = m.length + 1 := by
  unfold insertOutput
  rw [if_neg (by rw [any_key_eq_false m c h]; exact Bool.false_ne_true)]
  simp

/-- Processing a non-abort `Done` message inserts the output and either
completes (all candidates have results) or continues with the remaining
messages. -/
theorem event_loop_go_done_nonabort (n : Nat) (acc : List (Oid × TestStatus))
    (c : Oid) (st : TestStatus) (rest : List JobResultMsg)
    (h : st.isAbort = false) :
    event_loop_go n acc (.done c st :: rest) =
      (if (insertOutput acc c st).length = n then
        .ok ⟨insertOutput acc c st, Option.none⟩
      else event_loop_go n (insertOutput acc c st) rest) := by
  cases st <;> simp_all [event_loop_go, TestStatus.isAbort]

/-- Processing an `Abort` result inserts it, records the abort error, and
stops immediately without touching the remaining messages. -/
theorem event_loop_go_done_abort (n : Nat) (acc : List (Oid × TestStatus))
    (c : Oid) (ec : Int) (rest : List JobResultMsg) :
    event_loop_go n acc (.done c (.abort ec) :: rest) =
      .ok ⟨insertOutput acc c (.abort ec), some ⟨c, ec⟩⟩ := by
  simp [event_loop_go]

/-- Existing bindings survive accumulation of messages with other keys. -/
theorem mem_accumulateFrom_of_mem (ms : List JobResultMsg) :
    ∀ acc d st', (d, st') ∈ acc → (∀ m ∈ ms, msgKey m ≠ d) →
      (d, st') ∈ accumulateFrom acc ms := by
  induction ms with
  | nil => intro acc d st' h _; exact h
  | cons m ms ih =>
    intro acc d st' hmem hkeys
    cases m with
    | done c st =>
      refine ih _ d st' ?_ (fun m' hm' => hkeys m' (List.mem_cons_of_mem _ hm'))
      exact mem_insertOutput_of_ne acc c d st st' hmem
        (fun h => hkeys _ (List.mem_cons_self _ _) h.symm)
    | jobError w c msg =>
      exact ih _ d st' hmem (fun m' hm' => hkeys m' (List.mem_cons_of_mem _ hm'))

/-- Every `Done` message with a key distinct from all later message keys
contributes its binding to the accumulated map. -/
theorem mem_accumulateFrom (ms : List JobResultMsg) :
    ∀ acc c' st', JobResultMsg.done c' st' ∈ ms → (ms.map msgKey).Nodup →
      (c', st') ∈ accumulateFrom acc ms := by
  induction ms with
  | nil => intro acc c' st' h _; exact absurd h (List.not_mem_nil _)
  | cons m ms ih =>
    intro acc c' st' hmem hnodup
    rw [List.map_cons, List.nodup_cons] at hnodup
    obtain ⟨hkey, hnodup'⟩ := hnodup
    rcases List.mem_cons.mp hmem with rfl | hmem'
    · refine mem_accumulateFrom_of_mem ms _ c' st'
        (mem_insertOutput_self acc c' st') ?_
      intro m' hm' h
      have hmm : msgKey m' ∈ ms.map msgKey := List.mem_map_of_mem msgKey hm'
      rw [h] at hmm
      exact hkey hmm
    · cases m with
      | done c st => exact ih _ c' st' hmem' hnodup'
      | jobError w c msg => exact ih _ c' st' hmem' hnodup'

/-- Accumulation introduces no binding for a key absent from the initial map
and from all message keys. -/
theorem not_mem_accumulateFrom (ms : List JobResultMsg) :
    ∀ acc d, (∀ st', (d, st') ∉ acc) → (∀ m ∈ ms, msgKey m ≠ d) →
      ∀ st', (d, st') ∉ accumulateFrom acc ms := by
  induction ms with
  | nil => intro acc d h _; exact h
  | cons m ms ih =>
    intro acc d hacc hkeys
    cases m with
    | done c st =>
      refine ih _ d ?_ (fun m' hm' => hkeys m' (List.mem_cons_of_mem _ hm'))
      exact not_mem_insertOutput acc c d st hacc
        (fun h => hkeys _ (List.mem_cons_self _ _) h.symm)
    | jobError w c msg =>
      exact ih _ d hacc (fun m' hm' => hkeys m' (List.mem_cons_of_mem _ hm'))

/-- Processing a block of non-abort `Done` messages with fresh, distinct
keys neither stops the event loop (as long as fewer than all candidates
have results) nor does anything but accumulate their outputs. -/
theorem event_loop_go_append (n : Nat) (ms1 rest : List JobResultMsg) :
    ∀ acc : List (Oid × TestStatus),
      (∀ m ∈ ms1, ∃ c st, m = .done c st ∧ st.isAbort = false) →
      (ms1.map msgKey).Nodup →
      (∀ m ∈ ms1, ∀ st', (msgKey m, st') ∉ acc) →
      acc.length + ms1.length < n →
      event_loop_go n acc (ms1 ++ rest) =
        event_loop_go n (accumulateFrom acc ms1) rest := by
  induction ms1 with
  | nil => intro acc _ _ _ _; rfl
  | cons m ms ih =>
    intro acc hgood hnodup hfresh hlen
    obtain ⟨c, st, rfl, habort⟩ := hgood m (List.mem_cons_self _ _)
    rw [List.map_cons, List.nodup_cons] at hnodup
    obtain ⟨hkey, hnodup'⟩ := hnodup
    have hcfresh : ∀ st', (c, st') ∉ acc :=
      hfresh _ (List.mem_cons_self _ _)
    have hlength : (insertOutput acc c st).length = acc.length + 1 :=
      insertOutput_length_of_fresh acc c st hcfresh
    rw [List.length_cons] at hlen
    rw [List.cons_append, event_loop_go_done_nonabort n acc c st _ habort,
      if_neg (by rw [hlength]; omega)]
    have hstep : accumulateFrom acc (JobResultMsg.done c st :: ms) =
        accumulateFrom (insertOutput acc c st) ms := rfl
    rw [hstep]
    refine ih (insertOutput acc c st)
      (fun m' hm' => hgood m' (List.mem_cons_of_mem _ hm')) hnodup' ?_
      (by rw [hlength]; omega)
    intro m' hm' st' hmem
    refine not_mem_insertOutput acc c (msgKey m') st
      (hfresh m' (List.mem_cons_of_mem _ hm')) ?_ st' hmem
    intro h
    have hmm : msgKey m' ∈ ms.map msgKey := List.mem_map_of_mem msgKey hm'
    rw [h] at hmm
    exact hkey hmm

/-- C8: when the event loop receives an `Abort` result after a block of
non-abort results (with distinct commits, fewer than the candidate count),
it records `TestingAbortedError` with that commit and exit code and stops
immediately: the aborted commit's output is in the result set together with
every earlier result, all later messages are ignored (the conclusion does
not depend on them, modelling the discarded queue), commits only mentioned
later are absent, and the summary then exits 1 regardless of search mode. -/
theorem C8_abort_stops_run (n : Nat) (ms1 ms2 : List JobResultMsg) (c : Oid)
    (ec : Int)
    (hgood : ∀ m ∈ ms1, ∃ c' st', m = .done c' st' ∧ st'.isAbort = false)
    (hnodup : (ms1.map msgKey).Nodup)
    (hlen : ms1.length < n) :
    event_loop n (ms1 ++ .done c (.abort ec) :: ms2) =
      .ok ⟨insertOutput (accumulateOutputs ms1) c (.abort ec),
        some ⟨c, ec⟩⟩ ∧
    ((c, TestStatus.abort ec) ∈
      insertOutput (accumulateOutputs ms1) c (.abort ec)) ∧
    (∀ c' st', JobResultMsg.done c' st' ∈ ms1 → c' ≠ c →
      (c', st') ∈ insertOutput (accumulateOutputs ms1) c (.abort ec)) ∧
    (∀ d, (∀ m ∈ ms1, msgKey m ≠ d) → d ≠ c → ∀ st',
      (d, st') ∉ insertOutput (accumulateOutputs ms1) c (.abort ec)) ∧
    (∀ isSearch, print_summary_exit_code
        ((insertOutput (accumulateOutputs ms1) c (.abort ec)).map Prod.snd)
        true isSearch = 1) := by
  refine ⟨?_, mem_insertOutput_self _ c _, ?_, ?_, ?_⟩
  · rw [event_loop, if_neg (by omega),
      event_loop_go_append n ms1 _ [] hgood hnodup (by simp) (by simpa using hlen),
      event_loop_go_done_abort]
    rfl
  · intro c' st' hmem hne
    exact mem_insertOutput_of_ne _ c c' _ st'
      (mem_accumulateFrom ms1 [] c' st' hmem hnodup) hne
  · intro d hkeys hne st'
    refine not_mem_insertOutput _ c d _ ?_ hne st'
    exact not_mem_accumulateFrom ms1 [] d (by simp) hkeys
  · intro isSearch
    simp [print_summary_exit_code]

/-- Witness for C8 at the claim's literal scenario: candidates `[A, B, C]`
as `[1, 2, 3]`, where `A` passes, `B` aborts with exit code 127, and `C`'s
message is still queued: the result set holds exactly `A` and `B`, the
abort error names `B` with code 127, and `C` is absent. -/
theorem C8_abort_stops_run_witness :
    event_loop 3
        [.done 1 (.passed false Option.none false),
          .done 2 (.abort 127),
          .done 3 (.passed false Option.none false)] =
      .ok ⟨[(1, .passed false Option.none false), (2, .abort 127)],
        some ⟨2, 127⟩⟩ ∧
    print_summary_exit_code
      [TestStatus.passed false Option.none false, .abort 127] true false = 1 := by
  have h := C8_abort_stops_run 3 [.done 1 (.passed false Option.none false)]
    [.done 3 (.passed false Option.none false)] 2 127
    (by
      intro m hm
      rcases List.mem_singleton.mp hm with rfl
      exact ⟨1, .passed false Option.none false, rfl, rfl⟩)
    (by simp) (by decide)
  refine ⟨?_, ?_⟩
  · have := h.1
    simpa using this
  · simpa using h.2.2.2.2 false

end GitBranchlessTest
